import Mathlib

/-!
Verification of the PRolice retrieval orchestrator and scoring engine.

This file shallowly embeds the Rust sources (`src/github/utils/analyzer.rs`,
`src/github/utils/pull_request_data.rs`, `src/github/utils/repository_data.rs`,
`src/github/json/review.rs`, `src/scoring/score.rs`) into Lean and proves or
refutes the specification's claims about them.

Modelling conventions:
* Rust `f64` is modelled by the type `Fp` below: finite values are exact
  rationals, and the non-finite values NaN and the two infinities are explicit
  constructors, with IEEE-style propagation (0/0 is NaN, x/0 for x > 0 is +inf,
  finite arithmetic is exact).  All quantities occurring in the claims
  (per-date counts, line counts, and the small averages in the tests) are
  exactly representable, so exact rationals are faithful for them.
* Timestamps (`chrono::DateTime<Utc>`) are integers counting seconds; the
  calendar date of a timestamp is its floor-division by 86400, and
  `chrono::Duration::num_days` truncates toward zero, matching chrono.
* `u64`/`usize` sums are modelled by `Nat`; wrap-around of a 64-bit sum of
  per-PR metric values is unreachable for realistic inputs and no claim
  concerns it.  The `i64 as u64` cast in the time metrics is modelled exactly
  as reduction modulo 2^64.
* `HashMap` is modelled by an association list; the source only ever inserts
  fresh keys, reads by key, and folds over all entries, and every folded
  quantity (a sum of rationals) is iteration-order independent.
-/

namespace PRolice

/-- Exact model of Rust `f64`: a finite rational, NaN, or a signed infinity. -/
inductive Fp where
  | finite (q : ℚ)
  | nan
  | inf
  | neginf
deriving DecidableEq, Repr

namespace Fp

/-- IEEE-style addition on the `f64` model. -/
def add : Fp → Fp → Fp
  | finite a, finite b => finite (a + b)
  | nan, _ => nan
  | _, nan => nan
  | inf, neginf => nan
  | neginf, inf => nan
  | inf, _ => inf
  | _, inf => inf
  | neginf, _ => neginf
  | _, neginf => neginf

/-- IEEE-style multiplication on the `f64` model. -/
def mul : Fp → Fp → Fp
  | finite a, finite b => finite (a * b)
  | nan, _ => nan
  | _, nan => nan
  | inf, inf => inf
  | inf, neginf => neginf
  | neginf, inf => neginf
  | neginf, neginf => inf
  | inf, finite b => if b = 0 then nan else if 0 < b then inf else neginf
  | finite a, inf => if a = 0 then nan else if 0 < a then inf else neginf
  | neginf, finite b => if b = 0 then nan else if 0 < b then neginf else inf
  | finite a, neginf => if a = 0 then nan else if 0 < a then neginf else inf

/-- IEEE-style division on the `f64` model: `0/0` is NaN, `x/0` is a signed
infinity for finite nonzero `x`, and finite division is exact. -/
def div : Fp → Fp → Fp
  | finite a, finite b =>
      if b = 0 then (if a = 0 then nan else if 0 < a then inf else neginf)
      else finite (a / b)
  | nan, _ => nan
  | _, nan => nan
  | inf, inf => nan
  | inf, neginf => nan
  | neginf, inf => nan
  | neginf, neginf => nan
  | inf, finite b => if 0 ≤ b then inf else neginf
  | neginf, finite b => if 0 ≤ b then neginf else inf
  | finite _, inf => finite 0
  | finite _, neginf => finite 0

/-- Truncation of a rational toward zero (the behaviour of `f64::trunc`). -/
def ratTrunc (q : ℚ) : ℚ := if 0 ≤ q then (⌊q⌋ : ℚ) else (⌈q⌉ : ℚ)

/-- `f64::trunc` on the model: truncates a finite value toward zero and leaves
NaN and the infinities unchanged. -/
def trunc : Fp → Fp
  | finite q => finite (ratTrunc q)
  | nan => nan
  | inf => inf
  | neginf => neginf

/-- `f64::abs` on the model. -/
def abs : Fp → Fp
  | finite q => finite |q|
  | nan => nan
  | inf => inf
  | neginf => inf

end Fp

/-- `ScoreType` from `src/scoring/score.rs`: the closed enumeration of metric
kinds, with each variant carrying its value. -/
inductive ScoreType where
  | amountOfParticipants (n : ℕ)
  | amountOfReviewers (n : ℕ)
  | attachments (n : ℕ)
  | authorCommentaryToChangesRatio (r : Fp)
  | pullRequestsDiscussionSize (n : ℕ)
  | pullRequestFlowRatio (r : Fp)
  | pullRequestLeadTime (n : ℕ)
  | pullRequestSize (n : ℕ)
  | testToCodeRatio (loc : ℕ) (test_loc : ℕ) (ratio : Fp)
  | timeToMerge (n : ℕ)
deriving DecidableEq, Repr

/-- A `unidiff::Hunk`, at the interface the scorer uses: its added-line and
removed-line counts. -/
structure Hunk where
  added : ℕ
  removed : ℕ
deriving DecidableEq, Repr

/-- `PullRequestData::count_net_added_lines_for_hunk`
(`pull_request_data.rs`, lines 319-330): `added - removed` in signed
arithmetic, floored at zero. -/
def count_net_added_lines_for_hunk (hunk : Hunk) : ℕ :=
  let net_added : ℤ := (hunk.added : ℤ) - (hunk.removed : ℤ)
  if 0 < net_added then net_added.toNat else 0

/-- `ReviewState` from `src/github/json/review.rs`: the five textual review
states of the remote API. -/
inductive ReviewState where
  | approved
  | pending
  | changesRequested
  | commented
  | dismissed
deriving DecidableEq, Repr

/-- The `visit_str` body of the hand-written `Deserialize` impl for
`ReviewState` (`review.rs`, lines 59-71): each state is accepted in its
upper-case REST spelling and its lower-case webhook spelling, and any other
string is a deserialization error. -/
def ReviewState.visit_str (value : String) : Except String ReviewState :=
  match value with
  | "APPROVED" => .ok .approved
  | "approved" => .ok .approved
  | "PENDING" => .ok .pending
  | "pending" => .ok .pending
  | "CHANGES_REQUESTED" => .ok .changesRequested
  | "changes_requested" => .ok .changesRequested
  | "COMMENTED" => .ok .commented
  | "commented" => .ok .commented
  | "DISMISSED" => .ok .dismissed
  | "dismissed" => .ok .dismissed
  | unknown => .error ("unknown variant " ++ unknown)

/-- The ten strings `ReviewState.visit_str` accepts. -/
def reviewStateStrings : List String :=
  ["APPROVED", "approved", "PENDING", "pending", "CHANGES_REQUESTED",
   "changes_requested", "COMMENTED", "commented", "DISMISSED", "dismissed"]

/-- `octocrab::models::User`, at the interface used: the login name. -/
structure User where
  login : String
deriving DecidableEq, Repr

/-- `octocrab::models::issues::Comment`, at the interface used: commenting
user and optional body. -/
structure Comment where
  user : User
  body : Option String
deriving DecidableEq, Repr

/-- `CommitComment` from `src/github/json/commit_comment.rs`, at the interface
used: commenting user and (mandatory) body. -/
structure CommitComment where
  user : User
  body : String
deriving DecidableEq, Repr

/-- `Review` from `src/github/json/review.rs`, at the interface used:
reviewing user, optional body, optional state. -/
structure Review where
  user : User
  body : Option String
  state : Option ReviewState
deriving DecidableEq, Repr

/-- The `author` field of a commit object (`commit.rs`, struct `Author`), at
the interface used: the author timestamp, in seconds. -/
structure CommitAuthor where
  date : ℤ
deriving DecidableEq, Repr

/-- The inner `commit` object (`commit.rs`, struct `Commit`), at the
interface used. -/
structure CommitData where
  author : CommitAuthor
deriving DecidableEq, Repr

/-- `CommitRoot` from `src/github/json/commit.rs`, at the interface used. -/
structure CommitRoot where
  commit : CommitData
deriving DecidableEq, Repr

/-- Classification of a `unidiff::PatchedFile` as exposed by
`PatchSet::added_files` / `modified_files` / `removed_files`. -/
inductive FileStatus where
  | added
  | modified
  | removed
deriving DecidableEq, Repr

/-- A `unidiff::PatchedFile`, at the interface used: source and target paths,
classification, and hunks. -/
structure PatchedFile where
  source_file : String
  target_file : String
  status : FileStatus
  hunks : List Hunk
deriving DecidableEq, Repr

/-- `PullRequestData` from `src/github/utils/pull_request_data.rs` (lines
21-35): the complete bundle for one analysed PR.  Timestamps are seconds. -/
structure PullRequestData where
  repo_name : String
  pr_number : ℕ
  pr_author : String
  pr_title : String
  main_message : String
  comments : List Comment
  commit_comments : List CommitComment
  commits : List CommitRoot
  reviews : List Review
  patch_set : List PatchedFile
  created_at : ℤ
  merged_at : ℤ
  closed_at : ℤ
deriving DecidableEq, Repr

/-- Whether the pattern matches at the very start of the haystack. -/
def leadingMatch : List Char → List Char → Bool
  | [], _ => true
  | _ :: _, [] => false
  | p :: ps, h :: hs => p == h && leadingMatch ps hs

/-- Whether the pattern occurs as a contiguous run anywhere in the
haystack (`str::contains` for a literal pattern). -/
def containsChars (pat : List Char) : List Char → Bool
  | [] => leadingMatch pat []
  | h :: hs => leadingMatch pat (h :: hs) || containsChars pat hs

/-- `str::to_ascii_lowercase`, character-wise on the code points
(`Char.toLower` lowercases exactly the ASCII upper-case letters). -/
def to_ascii_lowercase (s : String) : List Char :=
  s.toList.map Char.toLower

/-- `PullRequestData::is_test_file` (`pull_request_data.rs`, lines 315-317):
case-insensitive substring check for "test" in the path. -/
def is_test_file (name : String) : Bool :=
  containsChars "test".toList (to_ascii_lowercase name)

/-- `PatchSet::added_files()` chained with `PatchSet::modified_files()`, the
file selection both net-added-line counters use. -/
def added_and_modified_files (patch_set : List PatchedFile) : List PatchedFile :=
  patch_set.filter (fun f => f.status = .added) ++
    patch_set.filter (fun f => f.status = .modified)

/-- `PullRequestData::get_amount_of_net_added_test_lines`
(`pull_request_data.rs`, lines 104-120). -/
def PullRequestData.get_amount_of_net_added_test_lines (prd : PullRequestData) : ℕ :=
  ((((added_and_modified_files prd.patch_set).filter
      (fun f => is_test_file f.target_file)).flatMap
    (fun f => f.hunks)).map count_net_added_lines_for_hunk).sum

/-- `PullRequestData::get_amount_of_net_added_non_test_lines`
(`pull_request_data.rs`, lines 126-142). -/
def PullRequestData.get_amount_of_net_added_non_test_lines (prd : PullRequestData) : ℕ :=
  ((((added_and_modified_files prd.patch_set).filter
      (fun f => ¬ is_test_file f.target_file)).flatMap
    (fun f => f.hunks)).map count_net_added_lines_for_hunk).sum

/-- `PullRequestData::get_amount_of_changes` (`pull_request_data.rs`, lines
145-159): additions plus deletions over every hunk of every file. -/
def PullRequestData.get_amount_of_changes (prd : PullRequestData) : ℕ :=
  ((prd.patch_set.flatMap (fun f => f.hunks)).map (fun h => h.added + h.removed)).sum

/-- `PullRequestData::get_author_commentary` (`pull_request_data.rs`, lines
167-202): PR body plus all comment/commit-comment/review bodies authored by
the PR author. -/
def PullRequestData.get_author_commentary (prd : PullRequestData) : List String :=
  [prd.main_message] ++
    ((prd.comments.filter (fun c => c.user.login = prd.pr_author)).filterMap
      (fun c => c.body)) ++
    ((prd.commit_comments.filter (fun cc => cc.user.login = prd.pr_author)).map
      (fun cc => cc.body)) ++
    ((prd.reviews.filter (fun r => r.user.login = prd.pr_author)).filterMap
      (fun r => r.body))

/-- `PullRequestData::get_all_commentary` (`pull_request_data.rs`, lines
205-228): the same concatenation without the author filter. -/
def PullRequestData.get_all_commentary (prd : PullRequestData) : List String :=
  [prd.main_message] ++
    (prd.comments.filterMap (fun c => c.body)) ++
    (prd.commit_comments.map (fun cc => cc.body)) ++
    (prd.reviews.filterMap (fun r => r.body))

/-- `PullRequestData::get_amount_of_author_commentary`
(`pull_request_data.rs`, lines 231-233): total character count. -/
def PullRequestData.get_amount_of_author_commentary (prd : PullRequestData) : ℕ :=
  (prd.get_author_commentary.map String.length).sum

/-- `PullRequestData::get_amount_of_commentary` (`pull_request_data.rs`,
lines 236-238). -/
def PullRequestData.get_amount_of_commentary (prd : PullRequestData) : ℕ :=
  (prd.get_all_commentary.map String.length).sum

/-- `itertools`' `unique()`: keep the first occurrence of each element. -/
def uniqueFirst (l : List String) : List String :=
  l.foldl (fun acc x => if x ∈ acc then acc else acc ++ [x]) []

/-- `PullRequestData::get_non_authoring_participants`
(`pull_request_data.rs`, lines 251-260): distinct comment/review/
commit-comment author logins, excluding the PR author. -/
def PullRequestData.get_non_authoring_participants (prd : PullRequestData) : List String :=
  (uniqueFirst
      ((prd.comments.map (fun c => c.user.login)) ++
        (prd.reviews.map (fun r => r.user.login)) ++
        (prd.commit_comments.map (fun cc => cc.user.login)))).filter
    (fun user => user ≠ prd.pr_author)

/-- `PullRequestData::get_non_authoring_reviewers` (`pull_request_data.rs`,
lines 266-273). -/
def PullRequestData.get_non_authoring_reviewers (prd : PullRequestData) : List String :=
  (uniqueFirst (prd.reviews.map (fun r => r.user.login))).filter
    (fun user => user ≠ prd.pr_author)

/-- `PullRequestData::get_attachments_markdown` (`pull_request_data.rs`,
lines 276-289), parameterized by the external regex engine's `find_iter` for
the attachment pattern (the `regex` crate is an external collaborator; no
claim depends on the matcher itself). -/
def PullRequestData.get_attachments_markdown
    (find_attachments : String → List String) (prd : PullRequestData) : List String :=
  prd.get_author_commentary.flatMap find_attachments

/-- `PullRequestData::get_first_commit_date` (`pull_request_data.rs`, lines
292-305): the author date of element 0 of the commit list; `none` models the
panic on an empty list. -/
def PullRequestData.get_first_commit_date (prd : PullRequestData) : Option ℤ :=
  prd.commits.head?.map (fun c => c.commit.author.date)

/-- `chrono::Duration::num_days` for a duration given in seconds: whole days,
truncated toward zero. -/
def num_days (d : ℤ) : ℤ :=
  Int.tdiv d 86400

/-- The Rust `as u64` cast of an `i64`: reduction modulo 2^64. -/
def u64_of_i64 (z : ℤ) : ℕ :=
  (z % (2 ^ 64 : ℤ)).toNat

/-- The per-PR test-to-code ratio computation (`pull_request_data.rs`, lines
348-354): a hard 0 when the net non-test line count is zero, otherwise the
absolute value of the ratio truncated to 2 decimals. -/
def test_to_code_ratio_of (net_test_lines_added net_non_test_lines_added : ℕ) : Fp :=
  if net_non_test_lines_added = 0 then
    Fp.finite 0
  else
    ((((Fp.finite net_test_lines_added).div
          (Fp.finite net_non_test_lines_added)).mul
        (Fp.finite 100)).trunc.div (Fp.finite 100)).abs

/-- The per-PR commentary-to-changes ratio (`pull_request_data.rs`, lines
338-339): author commentary characters over total changed lines, truncated to
2 decimals, with no zero-divisor guard. -/
def commentary_to_changes_ratio_of (author_comments changes_added : ℕ) : Fp :=
  (((Fp.finite author_comments).div (Fp.finite changes_added)).mul
      (Fp.finite 100)).trunc.div (Fp.finite 100)

/-- `Scorable::get_score` for `PullRequestData` (`pull_request_data.rs`,
lines 333-424).  The resulting entries follow the `ScoreType` enumeration
order with `PullRequestFlowRatio` skipped, exactly as the exhaustive match
pushes them.  `none` models the panic on an empty commit list.  The per-PR
`TestToCodeRatio` entry carries the net non-test line count as `loc` and the
net test line count as `test_loc`; the src snapshot of this file predates the
struct variant of `ScoreType::TestToCodeRatio`, so those two fields are
modelled from the spec, which defines the per-PR `loc`/`test_loc` as exactly
these counts. -/
def PullRequestData.get_score
    (find_attachments : String → List String) (prd : PullRequestData) :
    Option (List ScoreType) :=
  let all_comments := prd.get_amount_of_commentary
  let author_comments := prd.get_amount_of_author_commentary
  let changes_added := prd.get_amount_of_changes
  let commentary_to_changes_ratio :=
    commentary_to_changes_ratio_of author_comments changes_added
  let net_test_lines_added := prd.get_amount_of_net_added_test_lines
  let net_non_test_lines_added := prd.get_amount_of_net_added_non_test_lines
  let test_to_code_ratio :=
    test_to_code_ratio_of net_test_lines_added net_non_test_lines_added
  let non_authoring_participants := prd.get_non_authoring_participants
  let non_authoring_reviewers := prd.get_non_authoring_reviewers
  let attachments := prd.get_attachments_markdown find_attachments
  let pull_request_lead_time := u64_of_i64 (num_days (prd.closed_at - prd.created_at))
  match prd.get_first_commit_date with
  | none => none
  | some first_commit_at =>
    let time_to_merge := u64_of_i64 (num_days (prd.merged_at - first_commit_at))
    some
      [ScoreType.amountOfParticipants non_authoring_participants.length,
        ScoreType.amountOfReviewers non_authoring_reviewers.length,
        ScoreType.attachments attachments.length,
        ScoreType.authorCommentaryToChangesRatio commentary_to_changes_ratio,
        ScoreType.pullRequestsDiscussionSize all_comments,
        ScoreType.pullRequestLeadTime pull_request_lead_time,
        ScoreType.pullRequestSize changes_added,
        ScoreType.testToCodeRatio net_non_test_lines_added net_test_lines_added
          test_to_code_ratio,
        ScoreType.timeToMerge time_to_merge]

/-- `chrono::DateTime::date()` on a seconds timestamp: the calendar day,
i.e. the floor of the timestamp by 86400 seconds. -/
def dateOf (t : ℤ) : ℤ :=
  Int.fdiv t 86400

/-- `*acc.entry(k).or_insert(0) += 1` on a `HashMap` modelled as an
association list: increment the entry for `k`, inserting 1 if absent. -/
def bumpEntry : List (ℤ × ℕ) → ℤ → List (ℤ × ℕ)
  | [], k => [(k, 1)]
  | (k', v) :: rest, k =>
    if k' = k then (k', v + 1) :: rest else (k', v) :: bumpEntry rest k

/-- `HashMap::get` on the association-list model. -/
def lookupKey : List (ℤ × ℕ) → ℤ → Option ℕ
  | [], _ => none
  | (k', v) :: rest, k => if k' = k then some v else lookupKey rest k

/-- `HashMap::insert` on the association-list model (rational values):
replace the entry for `k` or append it. -/
def insertEntry : List (ℤ × ℚ) → ℤ → ℚ → List (ℤ × ℚ)
  | [], k, v => [(k, v)]
  | (k', v') :: rest, k, v =>
    if k' = k then (k, v) :: rest else (k', v') :: insertEntry rest k v

/-- The date-to-count map builder shared by the created-at and closed-at maps
(`repository_data.rs`, lines 199-210): fold the dates, bumping one entry per
PR. -/
def build_count_map (dates : List ℤ) : List (ℤ × ℕ) :=
  dates.foldl bumpEntry []

/-- `created_at_map` (`repository_data.rs`, lines 199-203): PRs created on
each date. -/
def created_at_map (prs : List PullRequestData) : List (ℤ × ℕ) :=
  build_count_map (prs.map (fun prd => dateOf prd.created_at))

/-- `closed_at_map` (`repository_data.rs`, lines 207-210): PRs closed on each
date. -/
def closed_at_map (prs : List PullRequestData) : List (ℤ × ℕ) :=
  build_count_map (prs.map (fun prd => dateOf prd.closed_at))

/-- `pull_request_flow_ratio_map` (`repository_data.rs`, lines 214-224): for
each entry of the created-at map whose date also appears in the closed-at
map, record created-count / closed-count (an exact `f64` quotient of two
nonzero counts, hence finite and kept as a rational). -/
def pull_request_flow_ratio_map (prs : List PullRequestData) : List (ℤ × ℚ) :=
  (created_at_map prs).foldl
    (fun acc created_at_entry =>
      match lookupKey (closed_at_map prs) created_at_entry.1 with
      | some amount_of_closures_in_day =>
        insertEntry acc created_at_entry.1
          ((created_at_entry.2 : ℚ) / (amount_of_closures_in_day : ℚ))
      | none => acc)
    []

/-- `calculate_pull_request_flow_ratio` (`repository_data.rs`, lines
196-230): the `f64` sum of the per-date ratios divided by the number of
entries (0.0/0.0, i.e. NaN, when the map is empty). -/
def calculate_pull_request_flow_ratio (prs : List PullRequestData) : Fp :=
  let m := pull_request_flow_ratio_map prs
  (Fp.finite ((m.map (fun entry => entry.2)).sum)).div (Fp.finite (m.length : ℚ))

/-- `num::integer::div_ceil` on `u64`/`usize`: with divisor 0 the Rust call
panics with a division by zero, modelled as `none`; otherwise the ceiling of
the quotient. -/
def div_ceil (a b : ℕ) : Option ℕ :=
  if b = 0 then none else some ((a + b - 1) / b)

/-- Rust integer division on `usize`: panics (modelled as `none`) on divisor
0, floor quotient otherwise. -/
def nat_div (a b : ℕ) : Option ℕ :=
  if b = 0 then none else some (a / b)

/-- The running totals of `Scorable::get_score` for `Vec<&PullRequestData>`
(`repository_data.rs`, lines 35-45). -/
structure Totals where
  total_amount_of_participants : ℕ
  total_amount_of_reviewers : ℕ
  total_attachments : ℕ
  total_author_commentary_to_changes_ratio : Fp
  total_pull_requests_discussion_size : ℕ
  total_pull_request_lead_time : ℕ
  total_pull_request_size : ℕ
  total_test_lines_added : ℕ
  total_non_test_lines_added : ℕ
  total_test_to_code_ratio : Fp
  total_time_to_merge : ℕ
deriving DecidableEq, Repr

/-- The zero-initialised totals (`repository_data.rs`, lines 35-45). -/
def Totals.init : Totals :=
  ⟨0, 0, 0, Fp.finite 0, 0, 0, 0, 0, 0, Fp.finite 0, 0⟩

/-- One iteration of the accumulation loop over the flattened per-PR score
entries (`repository_data.rs`, lines 47-131).  Note the `TestToCodeRatio`
arm: `loc` feeds `total_non_test_lines_added` and `test_loc` feeds
`total_test_lines_added`, and `PullRequestFlowRatio` entries contribute
nothing. -/
def Totals.accumulate (t : Totals) : ScoreType → Totals
  | .amountOfParticipants aop =>
    { t with total_amount_of_participants := t.total_amount_of_participants + aop }
  | .amountOfReviewers aor =>
    { t with total_amount_of_reviewers := t.total_amount_of_reviewers + aor }
  | .attachments a =>
    { t with total_attachments := t.total_attachments + a }
  | .authorCommentaryToChangesRatio actcr =>
    { t with total_author_commentary_to_changes_ratio :=
        t.total_author_commentary_to_changes_ratio.add actcr }
  | .pullRequestsDiscussionSize prds =>
    { t with total_pull_requests_discussion_size :=
        t.total_pull_requests_discussion_size + prds }
  | .pullRequestFlowRatio _ => t
  | .pullRequestLeadTime prlt =>
    { t with total_pull_request_lead_time := t.total_pull_request_lead_time + prlt }
  | .pullRequestSize prs =>
    { t with total_pull_request_size := t.total_pull_request_size + prs }
  | .testToCodeRatio loc test_loc ratio =>
    { t with
      total_non_test_lines_added := t.total_non_test_lines_added + loc,
      total_test_lines_added := t.total_test_lines_added + test_loc,
      total_test_to_code_ratio := t.total_test_to_code_ratio.add ratio }
  | .timeToMerge ttm =>
    { t with total_time_to_merge := t.total_time_to_merge + ttm }

/-- The averaging stage of `Scorable::get_score` for `Vec<&PullRequestData>`
(`repository_data.rs`, lines 134-192): one entry per `ScoreType` variant, in
enumeration order.  Each integer average is a `div_ceil` (or, for the two
`TestToCodeRatio` line counts, a floor division) by the PR count, and each
such division panics — `none` here — exactly when that count is zero, so an
empty collection aborts at the participants average (line 143) before any
score exists.  The `TestToCodeRatio` arm reproduces the source verbatim:
`loc` is assigned `total_test_lines_added / n` and `test_loc` is assigned
`total_non_test_lines_added / n`, and the ratio fields are plain `f64`
divisions (which do not panic). -/
def aggregate_scorables (total_amount_of_prs : ℕ) (t : Totals)
    (flow_ratio : Fp) : Option (List ScoreType) := do
  let participants ← div_ceil t.total_amount_of_participants total_amount_of_prs
  let reviewers ← div_ceil t.total_amount_of_reviewers total_amount_of_prs
  let attachments ← div_ceil t.total_attachments total_amount_of_prs
  let discussion_size ← div_ceil t.total_pull_requests_discussion_size total_amount_of_prs
  let lead_time ← div_ceil t.total_pull_request_lead_time total_amount_of_prs
  let pull_request_size ← div_ceil t.total_pull_request_size total_amount_of_prs
  let loc ← nat_div t.total_test_lines_added total_amount_of_prs
  let test_loc ← nat_div t.total_non_test_lines_added total_amount_of_prs
  let time_to_merge ← div_ceil t.total_time_to_merge total_amount_of_prs
  pure
    [ScoreType.amountOfParticipants participants,
      ScoreType.amountOfReviewers reviewers,
      ScoreType.attachments attachments,
      ScoreType.authorCommentaryToChangesRatio
        (t.total_author_commentary_to_changes_ratio.div
          (Fp.finite (total_amount_of_prs : ℚ))),
      ScoreType.pullRequestsDiscussionSize discussion_size,
      ScoreType.pullRequestFlowRatio flow_ratio,
      ScoreType.pullRequestLeadTime lead_time,
      ScoreType.pullRequestSize pull_request_size,
      ScoreType.testToCodeRatio loc test_loc
        (t.total_test_to_code_ratio.div (Fp.finite (total_amount_of_prs : ℚ))),
      ScoreType.timeToMerge time_to_merge]

/-- `Scorable::get_score` for `Vec<&PullRequestData>` (`repository_data.rs`,
lines 26-194): score every PR, flatten the entries, accumulate totals, and
emit the averaged entry for every metric kind plus the flow ratio.  `none`
models a panic: either of a per-PR scoring on an empty commit list, or of the
averaging stage's zero-divisor division for an empty collection. -/
def pull_requests_get_score (find_attachments : String → List String)
    (prs : List PullRequestData) : Option (List ScoreType) := do
  let per_pr ← prs.mapM (PullRequestData.get_score find_attachments)
  let scores := per_pr.flatten
  let totals := scores.foldl Totals.accumulate Totals.init
  aggregate_scorables prs.length totals (calculate_pull_request_flow_ratio prs)

/-- The multiset of creations of date `d` in a PR collection (the count the
created-at map stores for `d` when nonzero). -/
def countCreatedOn (prs : List PullRequestData) (d : ℤ) : ℕ :=
  (prs.map (fun prd => dateOf prd.created_at)).count d

/-- The closures of date `d` in a PR collection. -/
def countClosedOn (prs : List PullRequestData) (d : ℤ) : ℕ :=
  (prs.map (fun prd => dateOf prd.closed_at)).count d

/-- The calendar dates on which at least one PR of the collection was created
and at least one was closed: the dates contributing to the flow ratio. -/
def bothDates (prs : List PullRequestData) : Finset ℤ :=
  (prs.map (fun prd => dateOf prd.created_at)).toFinset ∩
    (prs.map (fun prd => dateOf prd.closed_at)).toFinset

/-- The spec's notion of the earliest commit of a bundle: the minimum author
timestamp over the commit list (compare `get_first_commit_date`, which takes
element 0 of the list instead). -/
def earliest_commit_author_date (prd : PullRequestData) : Option ℤ :=
  (prd.commits.map (fun c => c.commit.author.date)).min?

/-- The `TimeToMerge` entry of a score list, if any. -/
def timeToMergeEntry (score : List ScoreType) : Option ℕ :=
  (score.filterMap (fun s =>
    match s with
    | .timeToMerge n => some n
    | _ => none)).head?

/-- The `TestToCodeRatio` entry of a score list, if any, as a
`(loc, test_loc, ratio)` triple. -/
def testToCodeRatioEntry (score : List ScoreType) : Option (ℕ × ℕ × Fp) :=
  (score.filterMap (fun s =>
    match s with
    | .testToCodeRatio loc test_loc ratio => some (loc, test_loc, ratio)
    | _ => none)).head?

/-- The subset of `AnalyzeError` (`src/error.rs`) reachable from the embedded
operations; nested `anyhow` causes are carried as strings. -/
inductive AnalyzeError where
  | asyncTaskError (nested : String)
  | diffParseError (repo_name : String) (pr_number : ℕ) (nested : String)
  | gitHubAPIError (msg : String)
  | gitHubAPIResponseBodyError (msg : String)
  | jsonParseError (msg : String)
  | noCommitsFoundError
  | pullRequestDataRetrievalError (repo_name : String) (pr_number : ℕ) (nested : String)
  | pullRequestIncompleteDataError (reason : String) (pr_number : ℕ)
  | pullRequestNotFound (repo_name : String) (pr_number : ℕ) (nested : String)
  | repositoryNotFoundError (msg : String)
deriving DecidableEq, Repr

/-- An HTTP response at the interface `get_pr_commits` uses: the optional
`Content-Length` header and the result of reading the body text. -/
structure HttpResponse where
  content_length : Option ℕ
  text : Except String String
deriving Repr

/-- `Analyzer::get_pr_commits` (`analyzer.rs`, lines 662-709), parameterized
by the external JSON deserializer for commit arrays.  A zero `Content-Length`
returns an empty success before anything is parsed; only after a successful
parse is an empty array turned into `NoCommitsFoundError`. -/
def get_pr_commits (parse_commits : String → Except String (List CommitRoot))
    (response : HttpResponse) : Except AnalyzeError (List CommitRoot) :=
  if response.content_length = some 0 then
    .ok []
  else
    match response.text with
    | .error e => .error (.gitHubAPIResponseBodyError e)
    | .ok raw_response_text =>
      match parse_commits raw_response_text with
      | .error e => .error (.jsonParseError e)
      | .ok parsed_json =>
        if parsed_json.isEmpty then .error .noCommitsFoundError else .ok parsed_json

/-- An `octocrab` `PullRequest` header, at the interface the orchestrator
uses. -/
structure PullRequest where
  number : ℕ
  title : String
  body : Option String
  user : User
  created_at : ℤ
  merged_at : Option ℤ
  closed_at : Option ℤ
deriving DecidableEq, Repr

/-- `Analyzer::get_pr_message` (`analyzer.rs`, lines 487-496). -/
def get_pr_message (pr : PullRequest) : String :=
  pr.body.getD ""

/-- `Analyzer::get_merged_date` (`analyzer.rs`, lines 499-508). -/
def get_merged_date (pr : PullRequest) : Except AnalyzeError ℤ :=
  match pr.merged_at with
  | some date => .ok date
  | none => .error (.pullRequestIncompleteDataError
      "No merged date. Only properly merged PRs can be analyzed in full." pr.number)

/-- `Analyzer::get_closed_date` (`analyzer.rs`, lines 511-520). -/
def get_closed_date (pr : PullRequest) : Except AnalyzeError ℤ :=
  match pr.closed_at with
  | some date => .ok date
  | none => .error (.pullRequestIncompleteDataError
      "No closed date. Only properly closed PRs can be analyzed in full." pr.number)

/-- The five concurrent sub-fetches of one PR's bundle. -/
inductive SubFetch where
  | comments
  | commitComments
  | reviews
  | diff
  | commits
deriving DecidableEq, Repr

/-- The remote's answers to the five sub-fetches, as the spawned tasks would
produce them (a `.error` models the task ending in failure). -/
structure SubFetchResults where
  comments : Except String (List Comment)
  commit_comments : Except String (List CommitComment)
  reviews : Except String (List Review)
  diff : Except String (List PatchedFile)
  commits : Except String (List CommitRoot)
deriving Repr

/-- `Analyzer::retrieve_pr_data_from` (`analyzer.rs`, lines 326-483): the
bundle-fetch routine for one PR.  It first validates the merge and close
timestamps; only when both are present does it launch the five sub-fetches
(the second component lists the launched sub-fetches, in spawn order).  If
all five succeed the bundle is assembled; otherwise the PR's outcome is a
single aggregated `PullRequestDataRetrievalError`. -/
def retrieve_pr_data_from (repo_name : String) (pr : PullRequest)
    (oracle : SubFetchResults) :
    Except AnalyzeError PullRequestData × List SubFetch :=
  let main_message := get_pr_message pr
  match get_merged_date pr with
  | .error e => (.error e, [])
  | .ok merged_at =>
    match get_closed_date pr with
    | .error e => (.error e, [])
    | .ok closed_at =>
      let launched : List SubFetch :=
        [.comments, .commitComments, .reviews, .diff, .commits]
      match oracle.comments, oracle.commit_comments, oracle.reviews,
          oracle.diff, oracle.commits with
      | .ok comments, .ok commit_comments, .ok reviews, .ok patch_set, .ok commits =>
        (.ok
          { repo_name := repo_name
            pr_number := pr.number
            pr_author := pr.user.login
            pr_title := pr.title
            main_message := main_message
            comments := comments
            commit_comments := commit_comments
            commits := commits
            reviews := reviews
            patch_set := patch_set
            created_at := pr.created_at
            merged_at := merged_at
            closed_at := closed_at }, launched)
      | _, _, _, _, _ =>
        (.error (.pullRequestDataRetrievalError repo_name pr.number
          "first sub-fetch failure"), launched)

/-- `futures::future::join_all` over spawned tasks: the scheduler completes
the tasks in an arbitrary order (`completion_order`, a list of task indices),
but `join_all` returns the results placed by spawn index.  `none` marks an
index whose completion was never delivered (impossible for a real scheduler,
i.e. for a completion order that is a permutation of the indices). -/
def join_all_collect {α : Type} (tasks : List α) (completion_order : List ℕ) :
    List (Option α) :=
  let completions := completion_order.filterMap
    (fun i => tasks[i]?.map (fun r => (i, r)))
  (List.range tasks.length).map
    (fun i => (completions.find? (fun c => c.1 == i)).map (fun c => c.2))

/-- `Analyzer::retrieve_repo_data` (`analyzer.rs`, lines 223-292), from the
point where the closed-PR listing `prs` has been obtained: one task is
spawned per listed PR (in listing order) and the joined outcomes are
collected.  The per-PR retrieval is abstracted as `fetch`, and the scheduler
timing as `completion_order`. -/
def retrieve_repo_data (fetch : PullRequest → Except AnalyzeError PullRequestData)
    (prs : List PullRequest) (completion_order : List ℕ) :
    List (Option (Except AnalyzeError PullRequestData)) :=
  join_all_collect (prs.map fetch) completion_order

/-- The key list of an association map. -/
def keysOf (m : List (ℤ × ℕ)) : List ℤ :=
  m.map Prod.fst

/-- A minimal complete bundle with the given creation and closing timestamps
(merged when closed), used to exercise the date-bucketed flow ratio. -/
def flowPr (created closed : ℤ) : PullRequestData :=
  { repo_name := "r"
    pr_number := 0
    pr_author := "a"
    pr_title := "t"
    main_message := ""
    comments := []
    commit_comments := []
    commits := [⟨⟨⟨0⟩⟩⟩]
    reviews := []
    patch_set := []
    created_at := created
    merged_at := closed
    closed_at := closed }

/-- The spec's flow-ratio example: three PRs created on day 0 (two of which
close on day 0) and one created on day 1 with no closure on day 1 (the
remaining closures land on days 5 and 6, where nothing is created). -/
def flowExamplePrs : List PullRequestData :=
  [flowPr 0 100, flowPr 3600 200, flowPr 7200 (5 * 86400), flowPr (86400 + 10) (6 * 86400)]

/-- A single PR created on day 0 and closed on day 1: no calendar date has
both a creation and a closure. -/
def disjointDatesPrs : List PullRequestData :=
  [flowPr 0 86400]

/-- A bundle whose diff nets 15 non-test lines (one modified non-test file,
20 added, 5 removed) and 8 test lines (one added test file, 10 added, 2 removed): the spec's
end-to-end diff example. -/
def swapExamplePr : PullRequestData :=
  { repo_name := "r"
    pr_number := 7
    pr_author := "a"
    pr_title := "t"
    main_message := ""
    comments := []
    commit_comments := []
    commits := [⟨⟨⟨0⟩⟩⟩]
    reviews := []
    patch_set :=
      [⟨"src/lib.rs", "src/lib.rs", .modified, [⟨20, 5⟩]⟩,
        ⟨"tests/t.rs", "tests/t.rs", .added, [⟨10, 2⟩]⟩]
    created_at := 0
    merged_at := 0
    closed_at := 0 }

/-- A bundle whose commit list is not chronologically ordered: element 0 is
authored on day 10, element 1 on day 0, and the merge lands on day 20. -/
def unsortedCommitsPr : PullRequestData :=
  { repo_name := "r"
    pr_number := 1
    pr_author := "a"
    pr_title := "t"
    main_message := ""
    comments := []
    commit_comments := []
    commits := [⟨⟨⟨864000⟩⟩⟩, ⟨⟨⟨0⟩⟩⟩]
    reviews := []
    patch_set := []
    created_at := 0
    merged_at := 1728000
    closed_at := 0 }

/-- A bundle with zero net test lines and five net non-test lines. -/
def zeroTestLinesPr : PullRequestData :=
  { repo_name := "r"
    pr_number := 1
    pr_author := "a"
    pr_title := "t"
    main_message := ""
    comments := []
    commit_comments := []
    commits := [⟨⟨⟨0⟩⟩⟩]
    reviews := []
    patch_set := [⟨"src/main.rs", "src/main.rs", .added, [⟨5, 0⟩]⟩]
    created_at := 0
    merged_at := 0
    closed_at := 0 }

/-- A PR header lacking its merge timestamp. -/
def noMergedDatePr : PullRequest :=
  { number := 42
    title := "t"
    body := none
    user := ⟨"a"⟩
    created_at := 0
    merged_at := none
    closed_at := some 0 }

/-- A remote that answers every sub-fetch successfully and emptily. -/
def emptyOracle : SubFetchResults :=
  ⟨.ok [], .ok [], .ok [], .ok [], .ok []⟩

/-- A two-PR listing for exercising the sample retrieval. -/
def samplePrs : List PullRequest :=
  [{ number := 1, title := "t1", body := none, user := ⟨"a"⟩, created_at := 0,
      merged_at := some 0, closed_at := some 0 },
    { number := 2, title := "t2", body := none, user := ⟨"b"⟩, created_at := 0,
      merged_at := none, closed_at := none }]

/-- A concrete per-PR retrieval outcome function for the sample witness. -/
def sampleFetch (pr : PullRequest) : Except AnalyzeError PullRequestData :=
  .error (.pullRequestNotFound "r" pr.number "x")

/-- C9: for every hunk, the net added line count equals
`max (added - removed) 0` computed in the integers; in particular it is never
negative, including when removals exceed additions. -/
theorem C9_net_added_lines_is_max_floor (h : Hunk) :
    (count_net_added_lines_for_hunk h : ℤ) = max ((h.added : ℤ) - (h.removed : ℤ)) 0 := by
  simp only [count_net_added_lines_for_hunk]
  split <;> omega

/-- C6: review-state deserialization accepts all five review states in both
the upper-case REST form and the lower-case webhook form — in particular
"APPROVED", "approved", "DISMISSED", "dismissed" and "changes_requested" map
to their states — and rejects every other string as a deserialization
failure. -/
theorem C6_review_state_deserialization :
    (ReviewState.visit_str "APPROVED" = .ok .approved ∧
      ReviewState.visit_str "approved" = .ok .approved ∧
      ReviewState.visit_str "PENDING" = .ok .pending ∧
      ReviewState.visit_str "pending" = .ok .pending ∧
      ReviewState.visit_str "CHANGES_REQUESTED" = .ok .changesRequested ∧
      ReviewState.visit_str "changes_requested" = .ok .changesRequested ∧
      ReviewState.visit_str "COMMENTED" = .ok .commented ∧
      ReviewState.visit_str "commented" = .ok .commented ∧
      ReviewState.visit_str "DISMISSED" = .ok .dismissed ∧
      ReviewState.visit_str "dismissed" = .ok .dismissed) ∧
    ∀ s : String, s ∉ reviewStateStrings →
      ReviewState.visit_str s = .error ("unknown variant " ++ s) := by
  constructor
  · exact ⟨rfl, rfl, rfl, rfl, rfl, rfl, rfl, rfl, rfl, rfl⟩
  · intro s hs
    simp only [reviewStateStrings, List.mem_cons, List.not_mem_nil, or_false] at hs
    push_neg at hs
    unfold ReviewState.visit_str
    split <;> simp_all

/-- Witness for C6: the lower-case webhook form "approved" is accepted and
the foreign string "FOO" is rejected. -/
theorem C6_witness :
    ReviewState.visit_str "approved" = .ok .approved ∧
    ReviewState.visit_str "FOO" = .error ("unknown variant " ++ "FOO") :=
  ⟨C6_review_state_deserialization.1.2.1,
    C6_review_state_deserialization.2 "FOO" (by decide)⟩

/-- C1 (refuting the zero-length-body half): when the commits response
carries `Content-Length: 0`, `get_pr_commits` succeeds with the empty commit
list — an empty success, whatever the parser would do — whereas a
successfully parsed empty JSON array does yield `NoCommitsFoundError`. -/
theorem C1_empty_commit_responses :
    (∀ (parse_commits : String → Except String (List CommitRoot))
        (body : Except String String),
      get_pr_commits parse_commits ⟨some 0, body⟩ = .ok []) ∧
    get_pr_commits (fun _ => .ok []) ⟨none, .ok "[]"⟩ = .error .noCommitsFoundError := by
  exact ⟨fun _ _ => rfl, rfl⟩

/-- C7: a PR lacking its merge timestamp or its close timestamp makes the
bundle-fetch routine fail with `PullRequestIncompleteDataError` without
launching any of the five sub-fetches. -/
theorem C7_incomplete_pr_short_circuits (repo_name : String) (pr : PullRequest)
    (oracle : SubFetchResults) (h : pr.merged_at = none ∨ pr.closed_at = none) :
    (retrieve_pr_data_from repo_name pr oracle).2 = [] ∧
    ∃ reason, (retrieve_pr_data_from repo_name pr oracle).1 =
      .error (.pullRequestIncompleteDataError reason pr.number) := by
  rcases h with h | h
  · refine ⟨?_, "No merged date. Only properly merged PRs can be analyzed in full.", ?_⟩ <;>
      simp [retrieve_pr_data_from, get_merged_date, h]
  · cases hm : pr.merged_at with
    | none =>
      refine ⟨?_, "No merged date. Only properly merged PRs can be analyzed in full.", ?_⟩ <;>
        simp [retrieve_pr_data_from, get_merged_date, hm]
    | some d =>
      refine ⟨?_, "No closed date. Only properly closed PRs can be analyzed in full.", ?_⟩ <;>
        simp [retrieve_pr_data_from, get_merged_date, get_closed_date, hm, h]

/-- Witness for C7: a PR with no merge timestamp launches no sub-fetch and
fails as incomplete. -/
theorem C7_witness :
    (retrieve_pr_data_from "r" noMergedDatePr emptyOracle).2 = [] ∧
    ∃ reason, (retrieve_pr_data_from "r" noMergedDatePr emptyOracle).1 =
      .error (.pullRequestIncompleteDataError reason noMergedDatePr.number) :=
  C7_incomplete_pr_short_circuits "r" noMergedDatePr emptyOracle (Or.inl rfl)

/-- In a completion stream formed over task indices that all address real
tasks, the completion delivered for a spawned index `i` carries exactly task
`i`'s result, wherever in the stream the scheduler placed it. -/
theorem find_completion_of_mem {α : Type} (tasks : List α) :
    ∀ (order : List ℕ) (i : ℕ), i ∈ order → (∀ j ∈ order, j < tasks.length) →
      ((order.filterMap (fun j => tasks[j]?.map (fun r => (j, r)))).find?
          (fun c => c.1 == i)) =
        tasks[i]?.map (fun r => (i, r)) := by
  intro order
  induction order with
  | nil => intro i hi _; exact absurd hi (List.not_mem_nil i)
  | cons j rest ih =>
    intro i hi hlt
    have hj : j < tasks.length := hlt j (List.mem_cons_self j rest)
    have htj : tasks[j]? = some tasks[j] := List.getElem?_eq_getElem hj
    by_cases hij : j = i
    · subst hij
      have hti : tasks[j]? = some tasks[j] := htj
      simp [List.filterMap_cons, htj, List.find?_cons]
    · have hi' : i ∈ rest := by
        rcases List.mem_cons.mp hi with h | h
        · exact absurd h.symm hij
        · exact h
      have hlt' : ∀ k ∈ rest, k < tasks.length := fun k hk =>
        hlt k (List.mem_cons_of_mem j hk)
      have hne : ((j, tasks[j]).1 == i) = false := by
        simp [hij]
      simp only [List.filterMap_cons, htj, Option.map_some', List.find?_cons, hne]
      exact ih i hi' hlt'

/-- C8: the sample retrieval returns exactly one outcome per PR of the input
listing, in listing order — the i-th outcome is the i-th PR's fetch result —
for every scheduler completion order (any permutation of the task indices);
in particular the output length equals the input listing's length. -/
theorem C8_sample_outcomes_preserve_listing_order
    (fetch : PullRequest → Except AnalyzeError PullRequestData)
    (prs : List PullRequest) (completion_order : List ℕ)
    (h : completion_order.Perm (List.range prs.length)) :
    retrieve_repo_data fetch prs completion_order =
      prs.map (fun pr => some (fetch pr)) := by
  unfold retrieve_repo_data join_all_collect
  have hlen : (prs.map fetch).length = prs.length := List.length_map prs fetch
  apply List.ext_getElem
  · simp
  · intro i h1 h2
    have hi_n : i < prs.length := by simpa using h2
    have hi_tasks : i < (prs.map fetch).length := by simpa [hlen] using hi_n
    have hmem : i ∈ completion_order :=
      h.mem_iff.mpr (List.mem_range.mpr (by simpa [hlen] using hi_tasks))
    have hbound : ∀ j ∈ completion_order, j < (prs.map fetch).length := by
      intro j hj
      have := List.mem_range.mp (h.mem_iff.mp hj)
      simpa [hlen] using this
    have hfind := find_completion_of_mem (prs.map fetch) completion_order i hmem hbound
    have hti : (prs.map fetch)[i]? = some ((prs.map fetch)[i]) :=
      List.getElem?_eq_getElem hi_tasks
    simp only [List.getElem_map]
    rw [List.getElem_range]
    rw [hfind, hti]
    simp [List.getElem_map]

/-- Witness for C8: a two-PR listing processed with the reversed completion
order still yields the outcomes in listing order. -/
theorem C8_witness :
    retrieve_repo_data sampleFetch samplePrs [1, 0] =
      samplePrs.map (fun pr => some (sampleFetch pr)) :=
  C8_sample_outcomes_preserve_listing_order sampleFetch samplePrs [1, 0] (by decide)

/-- Case analysis of the per-PR test-to-code ratio: a hard 0 for a zero
non-test count, the truncated absolute quotient otherwise, and never NaN. -/
theorem test_to_code_ratio_of_cases (t n : ℕ) :
    (n = 0 → test_to_code_ratio_of t n = Fp.finite 0) ∧
    (n ≠ 0 → test_to_code_ratio_of t n =
      Fp.finite (|Fp.ratTrunc (((t : ℚ) * 100) / (n : ℚ))| / 100)) ∧
    test_to_code_ratio_of t n ≠ Fp.nan := by
  have hmain : ∀ _ : n ≠ 0, test_to_code_ratio_of t n =
      Fp.finite (|Fp.ratTrunc (((t : ℚ) * 100) / (n : ℚ))| / 100) := by
    intro hn
    have hnq : (n : ℚ) ≠ 0 := Nat.cast_ne_zero.mpr hn
    have h100 : (100 : ℚ) ≠ 0 := by norm_num
    unfold test_to_code_ratio_of
    rw [if_neg hn]
    simp only [Fp.div, Fp.mul, Fp.trunc, Fp.abs, if_neg hnq, if_neg h100]
    rw [div_mul_eq_mul_div, abs_div]
    norm_num
  refine ⟨fun h0 => by unfold test_to_code_ratio_of; rw [if_pos h0], hmain, ?_⟩
  rcases eq_or_ne n 0 with h0 | h0
  · unfold test_to_code_ratio_of
    rw [if_pos h0]
    simp
  · rw [hmain h0]
    simp

/-- C5 (amended): the test-to-code ratio entry of a per-PR score is a hard 0
whenever the net non-test line count is 0, and otherwise is the absolute
value of net test over net non-test truncated to two decimals (which may
itself be 0, e.g. for zero net test lines); it is never NaN. -/
theorem C5_test_to_code_ratio_amended (prd : PullRequestData)
    (fa : String → List String) (c : CommitRoot)
    (hc : prd.commits.head? = some c) :
    ∃ score, prd.get_score fa = some score ∧
      testToCodeRatioEntry score =
        some (prd.get_amount_of_net_added_non_test_lines,
          prd.get_amount_of_net_added_test_lines,
          test_to_code_ratio_of prd.get_amount_of_net_added_test_lines
            prd.get_amount_of_net_added_non_test_lines) ∧
      (prd.get_amount_of_net_added_non_test_lines = 0 →
        test_to_code_ratio_of prd.get_amount_of_net_added_test_lines
          prd.get_amount_of_net_added_non_test_lines = Fp.finite 0) ∧
      (prd.get_amount_of_net_added_non_test_lines ≠ 0 →
        test_to_code_ratio_of prd.get_amount_of_net_added_test_lines
          prd.get_amount_of_net_added_non_test_lines =
          Fp.finite (|Fp.ratTrunc (((prd.get_amount_of_net_added_test_lines : ℚ) * 100) /
            (prd.get_amount_of_net_added_non_test_lines : ℚ))| / 100)) ∧
      test_to_code_ratio_of prd.get_amount_of_net_added_test_lines
        prd.get_amount_of_net_added_non_test_lines ≠ Fp.nan := by
  obtain ⟨hz, hnz, hnn⟩ := test_to_code_ratio_of_cases
    prd.get_amount_of_net_added_test_lines prd.get_amount_of_net_added_non_test_lines
  simp only [PullRequestData.get_score, PullRequestData.get_first_commit_date, hc,
    Option.map_some']
  exact ⟨_, rfl, rfl, hz, hnz, hnn⟩

/-- The test-to-code entry of any per-PR score, in terms of the bundle's net
line counts. -/
theorem testToCodeRatioEntry_get_score (prd : PullRequestData)
    (fa : String → List String) (c : CommitRoot)
    (hc : prd.commits.head? = some c) :
    ∃ score, prd.get_score fa = some score ∧
      testToCodeRatioEntry score =
        some (prd.get_amount_of_net_added_non_test_lines,
          prd.get_amount_of_net_added_test_lines,
          test_to_code_ratio_of prd.get_amount_of_net_added_test_lines
            prd.get_amount_of_net_added_non_test_lines) := by
  simp only [PullRequestData.get_score, PullRequestData.get_first_commit_date, hc,
    Option.map_some']
  exact ⟨_, rfl, rfl⟩

/-- Counterexample for C5: a bundle with five net non-test lines and zero net
test lines scores a test-to-code ratio of exactly 0 even though its net
non-test line count is nonzero, so "ratio is 0 exactly when net non-test
lines is 0" fails in the only-if direction. -/
theorem C5_counterexample :
    zeroTestLinesPr.get_amount_of_net_added_non_test_lines = 5 ∧
    zeroTestLinesPr.get_amount_of_net_added_test_lines = 0 ∧
    (∃ score, PullRequestData.get_score (fun _ => []) zeroTestLinesPr = some score ∧
      testToCodeRatioEntry score = some (5, 0, Fp.finite 0)) ∧
    (5 : ℕ) ≠ 0 := by
  have h5 : zeroTestLinesPr.get_amount_of_net_added_non_test_lines = 5 := by decide
  have h0 : zeroTestLinesPr.get_amount_of_net_added_test_lines = 0 := by decide
  have hval : test_to_code_ratio_of 0 5 = Fp.finite 0 := by
    rw [(test_to_code_ratio_of_cases 0 5).2.1 (by norm_num)]
    congr 1
    norm_num [Fp.ratTrunc]
  obtain ⟨s, hs, he⟩ :=
    testToCodeRatioEntry_get_score zeroTestLinesPr (fun _ => []) ⟨⟨⟨0⟩⟩⟩ rfl
  refine ⟨h5, h0, ⟨s, hs, ?_⟩, by decide⟩
  rw [he, h5, h0, hval]

/-- Witness for C5: the amended statement instantiated at the
five-non-test-lines bundle. -/
theorem C5_witness :
    ∃ score, PullRequestData.get_score (fun _ => []) zeroTestLinesPr = some score ∧
      testToCodeRatioEntry score =
        some (zeroTestLinesPr.get_amount_of_net_added_non_test_lines,
          zeroTestLinesPr.get_amount_of_net_added_test_lines,
          test_to_code_ratio_of zeroTestLinesPr.get_amount_of_net_added_test_lines
            zeroTestLinesPr.get_amount_of_net_added_non_test_lines) ∧
      (zeroTestLinesPr.get_amount_of_net_added_non_test_lines = 0 →
        test_to_code_ratio_of zeroTestLinesPr.get_amount_of_net_added_test_lines
          zeroTestLinesPr.get_amount_of_net_added_non_test_lines = Fp.finite 0) ∧
      (zeroTestLinesPr.get_amount_of_net_added_non_test_lines ≠ 0 →
        test_to_code_ratio_of zeroTestLinesPr.get_amount_of_net_added_test_lines
          zeroTestLinesPr.get_amount_of_net_added_non_test_lines =
          Fp.finite
            (|Fp.ratTrunc (((zeroTestLinesPr.get_amount_of_net_added_test_lines : ℚ) * 100) /
              (zeroTestLinesPr.get_amount_of_net_added_non_test_lines : ℚ))| / 100)) ∧
      test_to_code_ratio_of zeroTestLinesPr.get_amount_of_net_added_test_lines
        zeroTestLinesPr.get_amount_of_net_added_non_test_lines ≠ Fp.nan :=
  C5_test_to_code_ratio_amended zeroTestLinesPr (fun _ => []) ⟨⟨⟨0⟩⟩⟩ rfl

/-- C4 (amended): the time-to-merge entry of a per-PR score is the number of
whole days between the author timestamp of the commit list's FIRST element
(element 0 — which is the earliest commit only when the list is
chronologically ordered, as the remote API returns it) and the merge
timestamp. -/
theorem C4_time_to_merge_uses_first_commit (prd : PullRequestData)
    (fa : String → List String) (c : CommitRoot)
    (hc : prd.commits.head? = some c) :
    ∃ score, prd.get_score fa = some score ∧
      timeToMergeEntry score =
        some (u64_of_i64 (num_days (prd.merged_at - c.commit.author.date))) := by
  simp only [PullRequestData.get_score, PullRequestData.get_first_commit_date, hc,
    Option.map_some']
  exact ⟨_, rfl, rfl⟩

/-- Counterexample for C4: with commits listed out of chronological order
(element 0 authored on day 10, element 1 on day 0) and a merge on day 20,
the scored time-to-merge is 10 days — measured from the first listed commit
— while the claim's "earliest commit" reading demands 20 days. -/
theorem C4_counterexample :
    timeToMergeEntry
        ((PullRequestData.get_score (fun _ => []) unsortedCommitsPr).getD []) =
      some 10 ∧
    earliest_commit_author_date unsortedCommitsPr = some 0 ∧
    u64_of_i64 (num_days (unsortedCommitsPr.merged_at - 0)) = 20 ∧
    (10 : ℕ) ≠ 20 := by
  refine ⟨by decide, by decide, by decide, by decide⟩

/-- Witness for C4: the amended statement instantiated at the
unsorted-commit-list bundle. -/
theorem C4_witness :
    ∃ score, PullRequestData.get_score (fun _ => []) unsortedCommitsPr = some score ∧
      timeToMergeEntry score =
        some (u64_of_i64 (num_days (unsortedCommitsPr.merged_at -
          (⟨⟨⟨864000⟩⟩⟩ : CommitRoot).commit.author.date))) :=
  C4_time_to_merge_uses_first_commit unsortedCommitsPr (fun _ => []) ⟨⟨⟨864000⟩⟩⟩ rfl

/-- C2 (exhibiting the bug): for a single PR whose per-PR score carries
`loc = 15` net non-test lines and `test_loc = 8` net test lines, the
repository aggregate's test-to-code entry is `loc = 8, test_loc = 15` — the
aggregated `loc` field holds the average of the per-PR `test_loc` values and
vice versa, contradicting the claim's field-wise correspondence (the ratio
field is averaged correctly). -/
theorem C2_aggregate_swaps_test_to_code_fields :
    (testToCodeRatioEntry
        ((PullRequestData.get_score (fun _ => []) swapExamplePr).getD [])).map
        (fun e => (e.1, e.2.1)) = some (15, 8) ∧
    (testToCodeRatioEntry
        ((pull_requests_get_score (fun _ => []) [swapExamplePr]).getD [])).map
        (fun e => (e.1, e.2.1)) = some (8, 15) ∧
    (15 : ℕ) ≠ 8 := by
  refine ⟨by decide, by decide, by decide⟩

/-- Reading back a key after bumping one: the bumped key gains one, every
other key is untouched. -/
theorem lookupKey_bumpEntry : ∀ (m : List (ℤ × ℕ)) (k k' : ℤ),
    lookupKey (bumpEntry m k) k' =
      if k' = k then some ((lookupKey m k').getD 0 + 1) else lookupKey m k'
  | [], k, k' => by
    rcases eq_or_ne k' k with h | h
    · subst h; simp [bumpEntry, lookupKey]
    · have h2 : ¬ k = k' := fun hh => h hh.symm
      simp [bumpEntry, lookupKey, h, h2]
  | (k0, v0) :: tl, k, k' => by
    have ih := lookupKey_bumpEntry tl k k'
    rcases eq_or_ne k0 k with h0 | h0
    · subst h0
      rcases eq_or_ne k0 k' with h1 | h1
      · subst h1
        simp [bumpEntry, lookupKey]
      · have h2 : ¬ k' = k0 := fun hh => h1 hh.symm
        simp [bumpEntry, lookupKey, h1, h2]
    · rcases eq_or_ne k0 k' with h1 | h1
      · subst h1
        simp [bumpEntry, lookupKey, h0]
      · have h2 : ¬ k' = k0 := fun hh => h1 hh.symm
        simp [bumpEntry, lookupKey, h0, h1, h2, ih]

/-- Bumping a key either leaves the key list alone or appends the new key. -/
theorem keysOf_bumpEntry : ∀ (m : List (ℤ × ℕ)) (k : ℤ),
    keysOf (bumpEntry m k) = if k ∈ keysOf m then keysOf m else keysOf m ++ [k]
  | [], k => by simp [bumpEntry, keysOf]
  | (k0, v0) :: tl, k => by
    have ih := keysOf_bumpEntry tl k
    simp only [keysOf] at ih ⊢
    rcases eq_or_ne k0 k with h0 | h0
    · subst h0
      simp [bumpEntry]
    · have h2 : ¬ k = k0 := fun hh => h0 hh.symm
      by_cases hk : k ∈ List.map Prod.fst tl
      · simp [bumpEntry, h0, ih, hk, h2]
      · simp [bumpEntry, h0, ih, hk, h2]

/-- A key is absent from an association list exactly when lookup misses. -/
theorem lookupKey_eq_none : ∀ (m : List (ℤ × ℕ)) (k : ℤ),
    lookupKey m k = none ↔ k ∉ keysOf m
  | [], k => by simp [lookupKey, keysOf]
  | (k0, v0) :: tl, k => by
    have ih := lookupKey_eq_none tl k
    rcases eq_or_ne k0 k with h0 | h0
    · subst h0; simp [lookupKey, keysOf]
    · have h2 : ¬ k = k0 := fun hh => h0 hh.symm
      simp [lookupKey, keysOf, h0, ih, h2]

/-- Bumping preserves distinctness of the keys. -/
theorem keysOf_bumpEntry_nodup (m : List (ℤ × ℕ)) (k : ℤ)
    (h : (keysOf m).Nodup) : (keysOf (bumpEntry m k)).Nodup := by
  rw [keysOf_bumpEntry]
  by_cases hk : k ∈ keysOf m
  · simpa [hk] using h
  · simp [hk, List.nodup_append, h]

/-- Folding a date list over `bumpEntry` adds each date's multiplicity to the
accumulator's entry for it. -/
theorem lookupKey_foldl_bumpEntry : ∀ (dates : List ℤ) (acc : List (ℤ × ℕ)) (d : ℤ),
    lookupKey (dates.foldl bumpEntry acc) d =
      if dates.count d = 0 then lookupKey acc d
      else some ((lookupKey acc d).getD 0 + dates.count d)
  | [], acc, d => by simp
  | x :: rest, acc, d => by
    have ih := lookupKey_foldl_bumpEntry rest (bumpEntry acc x) d
    rw [List.foldl_cons, ih, lookupKey_bumpEntry]
    rcases eq_or_ne d x with h | h
    · subst h
      rw [List.count_cons_self]
      have h1 : rest.count d + 1 ≠ 0 := Nat.succ_ne_zero _
      have hdd : (if d = d then some ((lookupKey acc d).getD 0 + 1) else lookupKey acc d) =
          some ((lookupKey acc d).getD 0 + 1) := if_pos rfl
      rcases eq_or_ne (rest.count d) 0 with hc | hc
      · simp [hc, hdd]
      · simp only [if_neg hc, if_neg h1, hdd, eq_self_iff_true, if_true, Option.getD_some]
        exact congrArg some (by omega)
    · rw [List.count_cons_of_ne h]
      simp [h]

/-- The count map stores exactly the multiplicities of the date list. -/
theorem lookupKey_build_count_map (dates : List ℤ) (d : ℤ) :
    lookupKey (build_count_map dates) d =
      if dates.count d = 0 then none else some (dates.count d) := by
  have h := lookupKey_foldl_bumpEntry dates [] d
  simpa [build_count_map, lookupKey] using h

/-- Folding dates into a map with distinct keys keeps the keys distinct. -/
theorem keysOf_foldl_bumpEntry_nodup : ∀ (dates : List ℤ) (acc : List (ℤ × ℕ)),
    (keysOf acc).Nodup → (keysOf (dates.foldl bumpEntry acc)).Nodup
  | [], _, h => h
  | x :: rest, acc, h =>
    keysOf_foldl_bumpEntry_nodup rest (bumpEntry acc x) (keysOf_bumpEntry_nodup acc x h)

/-- The count map's keys are distinct. -/
theorem keysOf_build_count_map_nodup (dates : List ℤ) :
    (keysOf (build_count_map dates)).Nodup :=
  keysOf_foldl_bumpEntry_nodup dates [] List.nodup_nil

/-- The count map mentions exactly the dates of the list. -/
theorem mem_keysOf_build_count_map (dates : List ℤ) (d : ℤ) :
    d ∈ keysOf (build_count_map dates) ↔ d ∈ dates := by
  have h1 := lookupKey_eq_none (build_count_map dates) d
  rw [lookupKey_build_count_map] at h1
  rcases eq_or_ne (dates.count d) 0 with hc | hc
  · have hd : d ∉ dates := by
      intro hmem
      exact absurd hc (List.count_pos_iff.mpr hmem).ne'
    simp [hc] at h1
    simp [h1, hd]
  · have hd : d ∈ dates := by
      by_contra hmem
      exact hc (List.count_eq_zero.mpr hmem)
    simp [hc] at h1
    simp [h1, hd]

/-- An association list with distinct keys is the image of its key list under
key-and-value pairing. -/
theorem assoc_eq_map_keysOf : ∀ (m : List (ℤ × ℕ)), (keysOf m).Nodup →
    m = (keysOf m).map (fun k => (k, (lookupKey m k).getD 0))
  | [], _ => rfl
  | (k0, v0) :: tl, h => by
    simp only [keysOf, List.map_cons] at h ⊢
    obtain ⟨hk0, htl⟩ := List.nodup_cons.mp h
    have hcongr : ∀ k ∈ List.map Prod.fst tl,
        (k, (lookupKey ((k0, v0) :: tl) k).getD 0) = (k, (lookupKey tl k).getD 0) := by
      intro k hk
      have hne : ¬ k0 = k := fun he => hk0 (he ▸ hk)
      simp [lookupKey, hne]
    have hhead : (k0, (lookupKey ((k0, v0) :: tl) k0).getD 0) = (k0, v0) := by
      simp [lookupKey]
    rw [hhead, List.map_congr_left hcongr]
    have htl_eq := assoc_eq_map_keysOf tl htl
    simp only [keysOf] at htl_eq
    rw [← htl_eq]

/-- Inserting a fresh key into a rational-valued association map appends. -/
theorem insertEntry_of_fresh : ∀ (acc : List (ℤ × ℚ)) (k : ℤ) (v : ℚ),
    k ∉ acc.map Prod.fst → insertEntry acc k v = acc ++ [(k, v)]
  | [], _, _, _ => rfl
  | (k0, v0) :: tl, k, v, h => by
    simp only [List.map_cons, List.mem_cons] at h
    push_neg at h
    have hne : ¬ k0 = k := fun he => h.1 he.symm
    simp only [insertEntry, if_neg hne, List.cons_append]
    rw [insertEntry_of_fresh tl k v h.2]

/-- The ratio-map fold over entries with distinct, fresh keys appends, per
entry, the created-over-closed ratio for each date found in the closed map. -/
theorem flow_fold (closed : List (ℤ × ℕ)) :
    ∀ (l : List (ℤ × ℕ)) (acc : List (ℤ × ℚ)),
      (l.map Prod.fst).Nodup →
      (∀ k ∈ l.map Prod.fst, k ∉ acc.map Prod.fst) →
      l.foldl (fun acc2 e =>
          match lookupKey closed e.1 with
          | some c => insertEntry acc2 e.1 ((e.2 : ℚ) / (c : ℚ))
          | none => acc2) acc =
        acc ++ l.filterMap (fun e =>
          (lookupKey closed e.1).map (fun c => (e.1, (e.2 : ℚ) / (c : ℚ)))) := by
  intro l
  induction l with
  | nil => intro acc _ _; simp
  | cons e rest ih =>
    intro acc hnd hfresh
    simp only [List.map_cons] at hnd
    obtain ⟨he, hrest⟩ := List.nodup_cons.mp hnd
    rw [List.foldl_cons, List.filterMap_cons]
    cases hc : lookupKey closed e.1 with
    | none =>
      simp only [hc]
      exact ih acc hrest (fun k hk => hfresh k (by simp [hk]))
    | some c =>
      simp only [hc, Option.map_some']
      have hfr : e.1 ∉ acc.map Prod.fst := hfresh e.1 (by simp)
      rw [insertEntry_of_fresh acc e.1 _ hfr]
      rw [ih (acc ++ [(e.1, (e.2 : ℚ) / (c : ℚ))]) hrest ?_]
      · simp
      · intro k hk
        have hk_ne : k ≠ e.1 := fun hkeq => he (hkeq ▸ hk)
        have hk_acc : k ∉ acc.map Prod.fst := hfresh k (by simp [hk])
        simp [hk_acc, hk_ne]

/-- The count map, written as key-count pairs over its distinct keys. -/
theorem build_count_map_eq (dates : List ℤ) :
    build_count_map dates =
      (keysOf (build_count_map dates)).map (fun k => (k, dates.count k)) := by
  have hnd := keysOf_build_count_map_nodup dates
  conv_lhs => rw [assoc_eq_map_keysOf (build_count_map dates) hnd]
  apply List.map_congr_left
  intro k hk
  have hc : dates.count k ≠ 0 := by
    have hmem := (mem_keysOf_build_count_map dates k).mp hk
    exact (List.count_pos_iff.mpr hmem).ne'
  rw [lookupKey_build_count_map, if_neg hc]
  rfl

/-- A filterMap returning `some (f d)` exactly on predicate hits is the map
over the filtered list. -/
theorem filterMap_option_ite {β : Type} (l : List ℤ) (p : ℤ → Bool) (f : ℤ → β) :
    l.filterMap (fun d => if p d then some (f d) else none) =
      (l.filter p).map f := by
  induction l with
  | nil => rfl
  | cons x rest ih =>
    by_cases hx : p x <;> simp [List.filterMap_cons, List.filter_cons, hx, ih]

/-- The flow-ratio map holds exactly one entry per date that was both a
creation date and a closure date of the collection, carrying the
created-over-closed count ratio, in created-map key order. -/
theorem pull_request_flow_ratio_map_eq (prs : List PullRequestData) :
    pull_request_flow_ratio_map prs =
      ((keysOf (created_at_map prs)).filter
          (fun d => decide (countClosedOn prs d ≠ 0))).map
        (fun d => (d, (countCreatedOn prs d : ℚ) / (countClosedOn prs d : ℚ))) := by
  unfold pull_request_flow_ratio_map created_at_map closed_at_map countCreatedOn countClosedOn
  have hnodup : ((build_count_map (prs.map
      (fun prd : PullRequestData => dateOf prd.created_at))).map Prod.fst).Nodup :=
    keysOf_build_count_map_nodup (prs.map
      (fun prd : PullRequestData => dateOf prd.created_at))
  have hfold := flow_fold (build_count_map (prs.map (fun prd => dateOf prd.closed_at)))
    (build_count_map (prs.map (fun prd => dateOf prd.created_at))) [] hnodup
    (fun k _ => by simp)
  rw [hfold, List.nil_append]
  conv_lhs =>
    rw [show build_count_map (prs.map (fun prd => dateOf prd.created_at)) =
        (keysOf (build_count_map (prs.map (fun prd => dateOf prd.created_at)))).map
          (fun k => (k, (prs.map (fun prd => dateOf prd.created_at)).count k)) from
      build_count_map_eq (prs.map (fun prd => dateOf prd.created_at))]
  rw [List.filterMap_map]
  have hpt : ∀ d ∈ keysOf (build_count_map (prs.map (fun prd => dateOf prd.created_at))),
      ((fun e => (lookupKey (build_count_map (prs.map (fun prd => dateOf prd.closed_at)))
            e.1).map (fun c => (e.1, (e.2 : ℚ) / (c : ℚ)))) ∘
        (fun k => (k, (prs.map (fun prd => dateOf prd.created_at)).count k))) d =
      (fun d => if decide ((prs.map (fun prd => dateOf prd.closed_at)).count d ≠ 0) then
        some (d, ((prs.map (fun prd => dateOf prd.created_at)).count d : ℚ) /
          ((prs.map (fun prd => dateOf prd.closed_at)).count d : ℚ)) else none) d := by
    intro d _
    simp only [Function.comp_apply, lookupKey_build_count_map]
    rcases eq_or_ne ((prs.map (fun prd => dateOf prd.closed_at)).count d) 0 with hc | hc
    · simp [hc]
    · simp [hc]
  rw [List.filterMap_congr hpt, filterMap_option_ite]

/-- C3: for any PR collection with at least one date on which a PR was
created and a PR was closed, the repository flow ratio is the arithmetic mean
of the per-date created-over-closed ratios, taken over exactly the dates
present in both date-count maps; in particular the spec's example (3 created,
2 closed on day X; 1 created, none closed on day Y) yields exactly 3/2. -/
theorem C3_flow_ratio_is_mean_over_common_dates :
    (∀ prs : List PullRequestData, (bothDates prs).Nonempty →
      calculate_pull_request_flow_ratio prs =
        Fp.finite ((∑ d ∈ bothDates prs,
            (countCreatedOn prs d : ℚ) / (countClosedOn prs d : ℚ)) /
          ((bothDates prs).card : ℚ))) ∧
    calculate_pull_request_flow_ratio flowExamplePrs = Fp.finite (3 / 2) := by
  have main : ∀ prs : List PullRequestData, (bothDates prs).Nonempty →
      calculate_pull_request_flow_ratio prs =
        Fp.finite ((∑ d ∈ bothDates prs,
            (countCreatedOn prs d : ℚ) / (countClosedOn prs d : ℚ)) /
          ((bothDates prs).card : ℚ)) := by
    intro prs hne
    unfold calculate_pull_request_flow_ratio
    rw [pull_request_flow_ratio_map_eq]
    have hkeys_nodup : (keysOf (created_at_map prs)).Nodup := by
      unfold created_at_map
      exact keysOf_build_count_map_nodup _
    have hbl_nodup : ((keysOf (created_at_map prs)).filter
        (fun d => decide (countClosedOn prs d ≠ 0))).Nodup := hkeys_nodup.filter _
    have hbl_finset : ((keysOf (created_at_map prs)).filter
        (fun d => decide (countClosedOn prs d ≠ 0))).toFinset = bothDates prs := by
      ext d
      simp only [List.mem_toFinset, List.mem_filter, bothDates, Finset.mem_inter,
        decide_eq_true_eq]
      constructor
      · rintro ⟨hdk, hdc⟩
        have hdcr : d ∈ prs.map (fun prd => dateOf prd.created_at) := by
          have := (mem_keysOf_build_count_map
            (prs.map (fun prd : PullRequestData => dateOf prd.created_at)) d).mp hdk
          exact this
        have hdcl : d ∈ prs.map (fun prd => dateOf prd.closed_at) :=
          List.count_pos_iff.mp (Nat.pos_of_ne_zero hdc)
        exact ⟨hdcr, hdcl⟩
      · rintro ⟨hdcr, hdcl⟩
        refine ⟨?_, ?_⟩
        · exact (mem_keysOf_build_count_map
            (prs.map (fun prd : PullRequestData => dateOf prd.created_at)) d).mpr hdcr
        · exact (List.count_pos_iff.mpr hdcl).ne'
    have hsum : (((keysOf (created_at_map prs)).filter
          (fun d => decide (countClosedOn prs d ≠ 0))).map
            (fun d => (countCreatedOn prs d : ℚ) / (countClosedOn prs d : ℚ))).sum =
        ∑ d ∈ bothDates prs,
          (countCreatedOn prs d : ℚ) / (countClosedOn prs d : ℚ) := by
      rw [← hbl_finset]
      exact (List.sum_toFinset _ hbl_nodup).symm
    have hcard : ((bothDates prs).card : ℚ) =
        (((keysOf (created_at_map prs)).filter
          (fun d => decide (countClosedOn prs d ≠ 0))).length : ℚ) := by
      rw [← hbl_finset, List.toFinset_card_of_nodup hbl_nodup]
    have hlen_ne : ((((keysOf (created_at_map prs)).filter
        (fun d => decide (countClosedOn prs d ≠ 0))).length : ℚ)) ≠ 0 := by
      obtain ⟨d, hd⟩ := hne
      rw [← hbl_finset] at hd
      have hmem := List.mem_toFinset.mp hd
      have hpos : 0 < ((keysOf (created_at_map prs)).filter
          (fun d => decide (countClosedOn prs d ≠ 0))).length :=
        List.length_pos.mpr (List.ne_nil_of_mem hmem)
      exact_mod_cast hpos.ne'
    simp only [List.map_map, List.length_map]
    have hcomp : ((fun e : ℤ × ℚ => e.2) ∘
        (fun d => (d, (countCreatedOn prs d : ℚ) / (countClosedOn prs d : ℚ)))) =
        fun d => (countCreatedOn prs d : ℚ) / (countClosedOn prs d : ℚ) := rfl
    rw [hcomp, hsum, hcard]
    simp only [Fp.div, if_neg hlen_ne]
  refine ⟨main, ?_⟩
  have hb : bothDates flowExamplePrs = {0} := by decide
  have h1 := main flowExamplePrs (by rw [hb]; exact ⟨0, Finset.mem_singleton_self 0⟩)
  rw [h1, hb, Finset.sum_singleton, Finset.card_singleton]
  have hcc : countCreatedOn flowExamplePrs 0 = 3 := by decide
  have hkk : countClosedOn flowExamplePrs 0 = 2 := by decide
  rw [hcc, hkk]
  norm_num

/-- Witness for C3: the mean formula instantiated at the spec's four-PR
example. -/
theorem C3_witness :
    calculate_pull_request_flow_ratio flowExamplePrs =
      Fp.finite ((∑ d ∈ bothDates flowExamplePrs,
          (countCreatedOn flowExamplePrs d : ℚ) / (countClosedOn flowExamplePrs d : ℚ)) /
        ((bothDates flowExamplePrs).card : ℚ)) :=
  C3_flow_ratio_is_mean_over_common_dates.1 flowExamplePrs (by decide)

/-- Whatever score the averaging stage produces carries its flow-ratio
argument as the `PullRequestFlowRatio` entry (for a zero PR count it
produces none at all). -/
theorem mem_aggregate_scorables_flow (n : ℕ) (t : Totals) (flow : Fp)
    (score : List ScoreType) (h : aggregate_scorables n t flow = some score) :
    ScoreType.pullRequestFlowRatio flow ∈ score := by
  rcases eq_or_ne n 0 with hn | hn
  · subst hn
    simp [aggregate_scorables, div_ceil] at h
  · simp [aggregate_scorables, div_ceil, nat_div, hn] at h
    rw [← h]
    simp

/-- C10 (amended): when no calendar date carries both a creation and a
closure, the per-date ratio map is empty and the returned flow ratio is the
NaN of 0.0/0.0; any repository score the aggregation produces (possible only
for a nonempty collection — see the counterexample for the empty one) then
carries that NaN as its flow-ratio entry. -/
theorem C10_no_common_dates_gives_nan (prs : List PullRequestData)
    (h : bothDates prs = ∅) :
    pull_request_flow_ratio_map prs = [] ∧
    calculate_pull_request_flow_ratio prs = Fp.nan ∧
    ∀ (fa : String → List String) (score : List ScoreType),
      pull_requests_get_score fa prs = some score →
      ScoreType.pullRequestFlowRatio Fp.nan ∈ score := by
  have hmap : pull_request_flow_ratio_map prs = [] := by
    rw [pull_request_flow_ratio_map_eq]
    have hbl : (keysOf (created_at_map prs)).filter
        (fun d => decide (countClosedOn prs d ≠ 0)) = [] := by
      rw [List.eq_nil_iff_forall_not_mem]
      intro d hd
      rw [List.mem_filter] at hd
      obtain ⟨hdk, hdc⟩ := hd
      have hdcr : d ∈ prs.map (fun prd => dateOf prd.created_at) :=
        (mem_keysOf_build_count_map
          (prs.map (fun prd : PullRequestData => dateOf prd.created_at)) d).mp hdk
      have hdcl : d ∈ prs.map (fun prd => dateOf prd.closed_at) :=
        List.count_pos_iff.mp (Nat.pos_of_ne_zero (by simpa using hdc))
      have hmem : d ∈ bothDates prs := Finset.mem_inter.mpr
        ⟨List.mem_toFinset.mpr hdcr, List.mem_toFinset.mpr hdcl⟩
      rw [h] at hmem
      exact absurd hmem (Finset.not_mem_empty d)
    rw [hbl]
    rfl
  have hnan : calculate_pull_request_flow_ratio prs = Fp.nan := by
    unfold calculate_pull_request_flow_ratio
    rw [hmap]
    simp [Fp.div]
  refine ⟨hmap, hnan, ?_⟩
  intro fa score hs
  unfold pull_requests_get_score at hs
  cases hm : prs.mapM (PullRequestData.get_score fa) with
  | none => rw [hm] at hs; simp at hs
  | some per_pr =>
    rw [hm] at hs
    simp at hs
    have hmem := mem_aggregate_scorables_flow _ _ _ _ hs
    rwa [hnan] at hmem

/-- Counterexample for C10: at the empty PR collection — explicitly included
by the claim — the ratio map is empty and the flow ratio is NaN, but the NaN
never appears in a repository score, because the aggregation aborts on the
zero-divisor participants average (`num::integer::div_ceil(0, 0)`,
`repository_data.rs` line 143) before any score exists. -/
theorem C10_counterexample :
    pull_request_flow_ratio_map ([] : List PullRequestData) = [] ∧
    calculate_pull_request_flow_ratio ([] : List PullRequestData) = Fp.nan ∧
    ∀ fa : String → List String,
      pull_requests_get_score fa ([] : List PullRequestData) = none := by
  have hmap : pull_request_flow_ratio_map ([] : List PullRequestData) = [] := rfl
  refine ⟨hmap, ?_, fun fa => rfl⟩
  unfold calculate_pull_request_flow_ratio
  rw [hmap]
  simp [Fp.div]

/-- Witness for C10: one PR created on day 0 and closed on day 1 yields an
empty ratio map, a NaN flow ratio, and a repository score carrying the NaN
entry. -/
theorem C10_witness :
    pull_request_flow_ratio_map disjointDatesPrs = [] ∧
    calculate_pull_request_flow_ratio disjointDatesPrs = Fp.nan ∧
    ScoreType.pullRequestFlowRatio Fp.nan ∈
      (pull_requests_get_score (fun _ => []) disjointDatesPrs).getD [] := by
  obtain ⟨h1, h2, h3⟩ := C10_no_common_dates_gives_nan disjointDatesPrs (by decide)
  refine ⟨h1, h2, ?_⟩
  have hsome : (pull_requests_get_score (fun _ => []) disjointDatesPrs).isSome = true := by
    decide
  obtain ⟨s, hs⟩ := Option.isSome_iff_exists.mp hsome
  rw [hs]
  exact h3 (fun _ => []) s hs

end PRolice
